import Mathlib

/-!
LubimyCzytac metadata provider: query normalisation, ranking, enrichment.

A shallow embedding of `src/server.js` (class `LubimyCzytacProvider`).

Modelling conventions.

* A JavaScript string is a `List Char` (`Str`).  Every string the provider handles
  is decoded text, so a well-formed sequence of Unicode characters.
* A regular expression is a value of `Re`, run by a backtracking matcher that
  follows the ECMAScript priorities (greedy before lazy, leftmost start first).
  Each pattern of the source is transcribed token by token.
* Numbers are exact: integers are `Int`, similarities and ratings are rationals,
  `-Infinity` and `NaN` are explicit constructors where the source can produce them.
* The network (`axios.get`), the HTML selector engine (`cheerio`), the
  `string-similarity` package and the built-in `toLowerCase` /
  `encodeURIComponent` are parameters (`Env`).  A fetched document is represented
  by what the selectors used by the provider return on it.
* The process-wide `NodeCache` is an explicit value threaded through `searchBooks`,
  together with the clock readings at `cache.get` and `cache.set`.
-/

namespace LubimyCzytac

/-- A JavaScript string. -/
abbrev Str := List Char

/-! ## Character classes -/

/-- Line terminators of ECMAScript: LF, CR, LS, PS. -/
def isLineTerminator (c : Char) : Bool :=
  c.toNat == 0x0A || c.toNat == 0x0D || c.toNat == 0x2028 || c.toNat == 0x2029

/-- White space in the sense of the regex class `\s` and of `String.prototype.trim`:
ECMAScript WhiteSpace together with the line terminators. -/
def isWhite (c : Char) : Bool :=
  c.toNat == 0x09 || c.toNat == 0x0A || c.toNat == 0x0B || c.toNat == 0x0C ||
  c.toNat == 0x0D || c.toNat == 0x20 || c.toNat == 0xA0 || c.toNat == 0x1680 ||
  (decide (0x2000 ≤ c.toNat) && decide (c.toNat ≤ 0x200A)) ||
  c.toNat == 0x2028 || c.toNat == 0x2029 || c.toNat == 0x202F ||
  c.toNat == 0x205F || c.toNat == 0x3000 || c.toNat == 0xFEFF

/-- The regex class `\d`. -/
def isDigit (c : Char) : Bool :=
  decide (0x30 ≤ c.toNat) && decide (c.toNat ≤ 0x39)

/-- The regex class `\w` (no `u` flag): ASCII letters, digits, underscore. -/
def isWordChar (c : Char) : Bool :=
  (decide (0x41 ≤ c.toNat) && decide (c.toNat ≤ 0x5A)) ||
  (decide (0x61 ≤ c.toNat) && decide (c.toNat ≤ 0x7A)) ||
  isDigit c || c.toNat == 0x5F

/-- Canonicalisation of a character under the `i` flag (no `u` flag).  Every literal
of the patterns below is ASCII, against which a non-ASCII character never matches,
so upper-casing the ASCII letters is exact. -/
def canon (c : Char) : Char := c.toUpper

/-- A one-character matcher of a pattern. -/
inductive Cls where
  /-- A literal character, case-sensitive. -/
  | lit (c : Char)
  /-- A literal character under the `i` flag. -/
  | litI (c : Char)
  /-- The class `\d`. -/
  | digit
  /-- The class `\s`. -/
  | space
  /-- The wildcard `.` (no `s` flag): anything but a line terminator. -/
  | dot
  /-- The negated class `[^c]`. -/
  | notLit (c : Char)
  /-- The class `[0-9a-fA-F]`. -/
  | hex
  deriving DecidableEq, Repr

/-- The class `[0-9a-fA-F]`. -/
def isHexDigit (c : Char) : Bool :=
  isDigit c || (decide (0x41 ≤ c.toNat) && decide (c.toNat ≤ 0x46)) ||
  (decide (0x61 ≤ c.toNat) && decide (c.toNat ≤ 0x66))

/-- Does the class accept the character? -/
def Cls.test : Cls → Char → Bool
  | .lit c, x => x == c
  | .litI c, x => canon x == canon c
  | .digit, x => isDigit x
  | .space, x => isWhite x
  | .dot, x => !isLineTerminator x
  | .notLit c, x => !(x == c)
  | .hex, x => isHexDigit x

/-! ## Regular expressions -/

/-- The fragment of ECMAScript patterns used by the provider.  Quantifiers `*`, `*?`
are only ever applied to one-character classes in the source. -/
inductive Re where
  /-- One character of a class. -/
  | one (c : Cls)
  /-- Greedy `c*`. -/
  | star (c : Cls)
  /-- Lazy `c*?`. -/
  | lazyStar (c : Cls)
  /-- Greedy `(?:r)?`. -/
  | opt (r : Re)
  /-- Capturing group number `n`. -/
  | group (n : Nat) (r : Re)
  /-- Concatenation. -/
  | seq (a b : Re)
  /-- The assertion `^` (no `m` flag). -/
  | bol
  /-- The assertion `$` (no `m` flag). -/
  | eol
  /-- The assertion `\b`. -/
  | wordB
  /-- The empty pattern. -/
  | eps
  deriving Repr

/-- Concatenation of a list of patterns. -/
def Re.cat : List Re → Re
  | [] => .eps
  | [r] => r
  | r :: rs => .seq r (Re.cat rs)

/-- Greedy `c+`. -/
def Re.plus (c : Cls) : Re := .seq (.one c) (.star c)

/-- A literal word, case-sensitive. -/
def Re.word (w : Str) : Re := Re.cat (w.map fun c => .one (.lit c))

/-- A literal word under the `i` flag. -/
def Re.wordI (w : Str) : Re := Re.cat (w.map fun c => .one (.litI c))

/-- The state of the matcher: the character before the current position (`none` at
the start of the input), the input still to read, and the captures recorded so
far, most recent first. -/
structure MState where
  prev : Option Char
  rest : Str
  caps : List (Nat × Str)
  deriving DecidableEq, Repr

/-- First alternative if it succeeds, else the second. -/
def orElse {α : Type} : Option α → Option α → Option α
  | some a, _ => some a
  | none, b => b

/-- Greedy iteration of a class: read as many characters as possible, giving one
back at a time while the continuation fails. -/
def starGreedy {α : Type} (c : Cls) (k : Option Char → Str → Option α) :
    Option Char → Str → Option α
  | p, [] => k p []
  | p, x :: xs =>
    if c.test x then orElse (starGreedy c k (some x) xs) (k p (x :: xs))
    else k p (x :: xs)

/-- Lazy iteration of a class: try the continuation first, read one more character
while it fails. -/
def starLazy {α : Type} (c : Cls) (k : Option Char → Str → Option α) :
    Option Char → Str → Option α
  | p, [] => k p []
  | p, x :: xs =>
    if c.test x then orElse (k p (x :: xs)) (starLazy c k (some x) xs)
    else k p (x :: xs)

/-- Is the position between `p` and the head of `s` a word boundary? -/
def atWordBoundary (p : Option Char) (s : Str) : Bool :=
  let a := match p with | some c => isWordChar c | none => false
  let b := match s with | c :: _ => isWordChar c | [] => false
  a != b

/-- The backtracking matcher, in continuation-passing style: `r.run s k` matches `r`
at state `s` and hands every candidate end state to `k`, in priority order, until
`k` accepts one. -/
def Re.run : Re → MState → (MState → Option MState) → Option MState
  | .one c, s, k =>
    match s.rest with
    | [] => none
    | x :: xs => if c.test x then k { s with prev := some x, rest := xs } else none
  | .star c, s, k =>
    starGreedy c (fun p r => k { s with prev := p, rest := r }) s.prev s.rest
  | .lazyStar c, s, k =>
    starLazy c (fun p r => k { s with prev := p, rest := r }) s.prev s.rest
  | .opt r, s, k => orElse (r.run s k) (k s)
  | .group n r, s, k =>
    r.run s fun t =>
      k { t with caps := (n, s.rest.take (s.rest.length - t.rest.length)) :: t.caps }
  | .seq a b, s, k => a.run s fun t => b.run t k
  | .bol, s, k => if s.prev.isNone then k s else none
  | .eol, s, k => if s.rest.isEmpty then k s else none
  | .wordB, s, k => if atWordBoundary s.prev s.rest then k s else none
  | .eps, s, k => k s

/-- Match `r` at the current position: the end state of the highest-priority
match, if any. -/
def matchAt (r : Re) (prev : Option Char) (s : Str) : Option MState :=
  r.run { prev := prev, rest := s, caps := [] } some

/-- A successful search: the text before the match, the matched text, the text
after it, and the captures. -/
structure Match where
  pre : Str
  matched : Str
  post : Str
  caps : List (Nat × Str)
  deriving DecidableEq, Repr

/-- Value of capture group `n` (`none` when the group did not take part). -/
def Match.cap (m : Match) (n : Nat) : Option Str :=
  (m.caps.find? fun p => p.1 == n).map Prod.snd

/-- Leftmost match of `r`, scanning start positions from the current one.  `pre` is
the text already passed, reversed. -/
def searchFrom (r : Re) : Option Char → Str → Str → Option Match
  | prev, pre, [] =>
    match matchAt r prev [] with
    | some t => some ⟨pre.reverse, [], t.rest, t.caps⟩
    | none => none
  | prev, pre, x :: xs =>
    match matchAt r prev (x :: xs) with
    | some t =>
      some ⟨pre.reverse, (x :: xs).take ((x :: xs).length - t.rest.length), t.rest, t.caps⟩
    | none => searchFrom r (some x) (x :: pre) xs

/-- `RegExp.prototype.exec` / `String.prototype.match` without the `g` flag. -/
def exec (r : Re) (s : Str) : Option Match := searchFrom r none [] s

/-- `RegExp.prototype.test`. -/
def test (r : Re) (s : Str) : Bool := (exec r s).isSome

/-- `String.prototype.replace` with a pattern without the `g` flag: the first match
is replaced by `repl m`. -/
def replaceFirst (r : Re) (repl : Match → Str) (s : Str) : Str :=
  match exec r s with
  | none => s
  | some m => m.pre ++ repl m ++ m.post

/-- `String.prototype.replace` with a `g` pattern; the replacement is computed from
the captures of each match.  `skip` counts the characters of the previous match
still to pass over; after an empty match the scan advances by one character. -/
def replaceAllFrom (r : Re) (repl : List (Nat × Str) → Str) : Nat → Option Char → Str → Str
  | _ + 1, _, [] => []
  | 0, prev, [] =>
    match matchAt r prev [] with
    | some t => repl t.caps
    | none => []
  | skip + 1, _, x :: xs => replaceAllFrom r repl skip (some x) xs
  | 0, prev, x :: xs =>
    match matchAt r prev (x :: xs) with
    | none => x :: replaceAllFrom r repl 0 (some x) xs
    | some t =>
      let n := (x :: xs).length - t.rest.length
      if n = 0 then repl t.caps ++ x :: replaceAllFrom r repl 0 (some x) xs
      else repl t.caps ++ replaceAllFrom r repl (n - 1) (some x) xs

/-- Global replacement over a whole string. -/
def replaceAll (r : Re) (repl : List (Nat × Str) → Str) (s : Str) : Str :=
  replaceAllFrom r repl 0 none s

/-- Global removal of every match (replacement by the empty string). -/
def removeAll (r : Re) (s : Str) : Str := replaceAll r (fun _ => []) s

/-- Removal of the first match (replacement by the empty string). -/
def removeFirst (r : Re) (s : Str) : Str := replaceFirst r (fun _ => []) s

/-! ## String built-ins -/

/-- `String.prototype.trim`. -/
def trim (s : Str) : Str := (s.dropWhile isWhite).rdropWhile isWhite

/-- `String.prototype.includes` for a non-empty needle. -/
def includes (sep : Str) : Str → Bool
  | [] => sep.isPrefixOf []
  | x :: xs => sep.isPrefixOf (x :: xs) || includes sep xs

/-- The scan of `String.prototype.split` with a non-empty string separator: `skip`
counts the separator characters still to pass over, `acc` is the current piece,
reversed. -/
def splitFrom (sep : Str) : Nat → Str → Str → List Str
  | _, acc, [] => [acc.reverse]
  | skip + 1, acc, _ :: xs => splitFrom sep skip acc xs
  | 0, acc, x :: xs =>
    if sep.isPrefixOf (x :: xs) then acc.reverse :: splitFrom sep (sep.length - 1) [] xs
    else splitFrom sep 0 (x :: acc) xs

/-- `String.prototype.split` with a non-empty string separator. -/
def split (sep : Str) (s : Str) : List Str := splitFrom sep 0 [] s

/-- `Array.prototype.join`. -/
def join (sep : Str) : List Str → Str
  | [] => []
  | [x] => x
  | x :: y :: rest => x ++ sep ++ join sep (y :: rest)

/-! ## Query normalisation (`searchBooks`, lines 56 to 86) -/

/-- The separator between author and title. -/
def sepDash : Str := " - ".toList

/-- The pattern `/^".*"$/`. -/
def reQuoted : Re := Re.cat [.bol, .one (.lit '"'), .star .dot, .one (.lit '"'), .eol]

/-- The pattern `/^"(.*)"$/`. -/
def reQuotedGroup : Re :=
  Re.cat [.bol, .one (.lit '"'), .group 1 (.star .dot), .one (.lit '"'), .eol]

/-- The pattern `/\s*\(\d{4}\)/g`. -/
def reYear : Re :=
  Re.cat [.star .space, .one (.lit '('), .one .digit, .one .digit, .one .digit, .one .digit,
    .one (.lit ')')]

/-- The pattern `/\s*\[.*?\]/g`. -/
def reBrackets : Re :=
  Re.cat [.star .space, .one (.lit '['), .lazyStar .dot, .one (.lit ']')]

/-- The pattern `/(\d+kbps)/gi`. -/
def reBitrate : Re := .group 1 (.seq (Re.plus .digit) (Re.wordI "kbps".toList))

/-- The pattern `/\bVBR\b.*$/gi`. -/
def reVbr : Re := Re.cat [.wordB, Re.wordI "VBR".toList, .wordB, .star .dot, .eol]

/-- The pattern `/czyt\. .*/i`. -/
def reCzyt : Re := Re.cat [Re.wordI "czyt".toList, .one (.litI '.'), .one (.litI ' '), .star .dot]

/-- The pattern `/superprodukcja/i`. -/
def reSuperprodukcja : Re := Re.wordI "superprodukcja".toList

/-- The pattern `/audiobook/i`. -/
def reAudiobook : Re := Re.wordI "audiobook".toList

/-- The pattern `/\s*PL$/i`. -/
def rePL : Re := Re.cat [.star .space, Re.wordI "PL".toList, .eol]

/-- The result of the normalisation: the author sent to the catalogue, the title
after the split (`cleanedTitle` at line 69) and the title after the cleanup
(`cleanedTitle` at line 88). -/
structure Normalized where
  extractedAuthor : Str
  rawTitle : Str
  cleanedTitle : Str
  deriving DecidableEq, Repr

/-- Lines 56 to 67: split `Author - Title` when no author is given.  The pair is
`(extractedAuthor, cleanedTitle)`. -/
def splitQuery (query author : Str) : Str × Str :=
  if author.isEmpty && includes sepDash query then
    let parts := split sepDash query
    if parts.length > 1 then
      (trim (parts.headD []), trim (join sepDash (parts.drop 1)))
    else (author, query)
  else (author, query)

/-- The replacement chain of lines 73 to 82. -/
def cleanupChain (t : Str) : Str :=
  trim
    (removeFirst rePL
      (removeFirst reAudiobook
        (removeFirst reSuperprodukcja
          (removeFirst reCzyt
            (removeAll reVbr
              (removeAll reBitrate
                (removeAll reBrackets
                  (removeAll reYear t))))))))

/-- Lines 72 to 86: the cleanup of the title, bypassed for a quoted title. -/
def cleanTitle (t : Str) : Str :=
  if !test reQuoted t then cleanupChain t
  else replaceFirst reQuotedGroup (fun m => (m.cap 1).getD []) t

/-- The query normalisation of `searchBooks`. -/
def normalize (query author : Str) : Normalized :=
  let p := splitQuery query author
  { extractedAuthor := p.1, rawTitle := p.2, cleanedTitle := cleanTitle p.2 }

/-! ## Numbers -/

/-- A JavaScript number, with exact arithmetic on the finite values. -/
inductive JSNum where
  | nan
  | negInf
  | posInf
  | fin (q : ℚ)
  deriving DecidableEq

namespace JSNum

/-- The sign of a number that is not `NaN`. -/
def sign : JSNum → Int
  | nan => 0
  | negInf => -1
  | posInf => 1
  | fin q => if 0 < q then 1 else if q < 0 then -1 else 0

/-- The infinity of a given sign; `NaN` for sign zero. -/
def infOfSign (s : Int) : JSNum :=
  if 0 < s then posInf else if s < 0 then negInf else nan

/-- Unary minus. -/
def neg : JSNum → JSNum
  | nan => nan
  | negInf => posInf
  | posInf => negInf
  | fin q => fin (-q)

/-- The operator `+`. -/
def add : JSNum → JSNum → JSNum
  | nan, _ => nan
  | _, nan => nan
  | fin a, fin b => fin (a + b)
  | posInf, negInf => nan
  | negInf, posInf => nan
  | posInf, _ => posInf
  | negInf, _ => negInf
  | _, posInf => posInf
  | _, negInf => negInf

/-- The operator `-`. -/
def sub (a b : JSNum) : JSNum := add a (neg b)

/-- The operator `*`. -/
def mul : JSNum → JSNum → JSNum
  | nan, _ => nan
  | _, nan => nan
  | fin a, fin b => fin (a * b)
  | a, b => infOfSign (sign a * sign b)

/-- The operator `/`. -/
def div : JSNum → JSNum → JSNum
  | nan, _ => nan
  | _, nan => nan
  | fin a, fin b => if b = 0 then infOfSign (sign (fin a)) else fin (a / b)
  | fin _, _ => fin 0
  | a, fin b => infOfSign (sign a * (if b < 0 then -1 else 1))
  | _, _ => nan

/-- Truthiness of a number: `NaN` and zero are falsy. -/
def truthy : JSNum → Bool
  | nan => false
  | fin q => decide (q ≠ 0)
  | _ => true

/-- The test `0 < x`. -/
def isPos (x : JSNum) : Bool := decide (0 < sign x)

/-- The operator `!==` on numbers: `NaN` differs from everything. -/
def strictNe : JSNum → JSNum → Bool
  | nan, _ => true
  | _, nan => true
  | a, b => decide (a ≠ b)

/-- The larger of two numbers, `NaN` if either is. -/
def max2 : JSNum → JSNum → JSNum
  | nan, _ => nan
  | _, nan => nan
  | posInf, _ => posInf
  | _, posInf => posInf
  | negInf, b => b
  | a, negInf => a
  | fin a, fin b => fin (max a b)

/-- The call `Math.max(...xs)`: `-Infinity` for no argument. -/
def mathMax (xs : List JSNum) : JSNum := xs.foldl max2 negInf

end JSNum

/-- Value of a decimal digit. -/
def digitVal (c : Char) : Nat := c.toNat - 0x30

/-- Value of a string of decimal digits. -/
def natOfDigits (ds : Str) : Nat := ds.foldl (fun n c => 10 * n + digitVal c) 0

/-- Value of a hexadecimal digit. -/
def hexVal (c : Char) : Nat :=
  if isDigit c then c.toNat - 0x30
  else if decide (0x61 ≤ c.toNat) then c.toNat - 0x61 + 10
  else c.toNat - 0x41 + 10

/-- Value of a string of hexadecimal digits. -/
def natOfHex (ds : Str) : Nat := ds.foldl (fun n c => 16 * n + hexVal c) 0

/-- Strip a leading sign: the flag is `true` for `-`. -/
def takeSign : Str → Bool × Str
  | c :: r => if c = '-' then (true, r) else if c = '+' then (false, r) else (false, c :: r)
  | [] => (false, [])

/-- Strip a leading `0x` or `0X`: the flag says whether one was found. -/
def takeHexPrefix : Str → Bool × Str
  | a :: b :: r => if a = '0' ∧ (b = 'x' ∨ b = 'X') then (true, r) else (false, a :: b :: r)
  | s => (false, s)

/-- The call `parseInt(s)` with no radix; `none` is `NaN`. -/
def parseInt (s : Str) : Option Int :=
  let p := takeSign (s.dropWhile isWhite)
  let h := takeHexPrefix p.2
  let ds := if h.1 then h.2.takeWhile isHexDigit else h.2.takeWhile isDigit
  if ds.isEmpty then none
  else
    let v : Int := if h.1 then natOfHex ds else natOfDigits ds
    some (if p.1 then -v else v)

/-- The exponent part of a decimal literal: its value, `0` when there is no
well-formed exponent. -/
def exponentPart : Str → Int
  | c :: r =>
    if c = 'e' ∨ c = 'E' then
      let p := takeSign r
      let ds := p.2.takeWhile isDigit
      if ds.isEmpty then 0 else if p.1 then -(natOfDigits ds : Int) else natOfDigits ds
    else 0
  | [] => 0

/-- Text after the integer part and the optional fraction of a decimal literal,
with the digits of the fraction. -/
def takeFraction : Str → Str × Str
  | c :: r => if c = '.' then (r.takeWhile isDigit, r.dropWhile isDigit) else ([], c :: r)
  | [] => ([], [])

/-- The call `parseFloat(s)`: the longest prefix that is a decimal literal. -/
def parseFloat (s : Str) : JSNum :=
  let p := takeSign (s.dropWhile isWhite)
  let signed (x : JSNum) : JSNum := if p.1 then x.neg else x
  if "Infinity".toList.isPrefixOf p.2 then signed .posInf
  else
    let ip := p.2.takeWhile isDigit
    let f := takeFraction (p.2.dropWhile isDigit)
    if ip.isEmpty && f.1.isEmpty then .nan
    else
      signed (.fin (((natOfDigits ip : ℚ) + (natOfDigits f.1 : ℚ) / 10 ^ f.1.length)
        * 10 ^ exponentPart f.2))

/-- `String.prototype.replace` with a string pattern: the first occurrence only. -/
def replaceFirstStr (pat repl : Str) : Str → Str
  | [] => if pat.isEmpty then repl else []
  | x :: xs =>
    if pat.isPrefixOf (x :: xs) then repl ++ (x :: xs).drop pat.length
    else x :: replaceFirstStr pat repl xs

/-! ## Data model -/

/-- The catalogue sub-index a candidate comes from. -/
inductive MatchType where
  | book
  | audiobook
  deriving DecidableEq, Repr

/-- The fixed `source` descriptor of a candidate. -/
structure Source where
  id : Str
  description : Str
  link : Str
  deriving DecidableEq, Repr

/-- An entry of `parseSearchResults`. -/
structure Candidate where
  id : Str
  title : Str
  authors : List Str
  url : Str
  type : MatchType
  source : Source
  deriving DecidableEq, Repr

/-- A candidate with its similarity (line 125). -/
structure RankedCandidate extends Candidate where
  similarity : JSNum
  deriving DecidableEq

/-- What the selectors of `parseSearchResults` return on one `.authorAllBooks__single`
element: the text and the `href` of the title link, and the texts of the author
links. -/
structure ListingEntry where
  titleText : Str
  href : Option Str
  authorTexts : List Str
  deriving DecidableEq, Repr

/-- What the selectors of `getFullMetadata` return on a detail document. -/
structure DetailView where
  /-- `$('img.img-fluid').attr('src')`. -/
  imgSrc : Option Str
  /-- `$('meta[property="og:image"]').attr('content')`. -/
  ogImage : Option Str
  /-- `$('span.book__txt a[href*="/wydawnictwo/"]').text()`. -/
  publisherSpan : Str
  /-- `$('dt:contains("Wydawnictwo:")').next('dd').find('a').text()`. -/
  publisherDd : Str
  /-- Text of the first series link. -/
  seriesText : Str
  /-- `$('a.book__category').text()`. -/
  genreText : Str
  /-- Texts of the elements `a[href*="/ksiazki/t/"]`. -/
  tagTexts : List Str
  /-- `$('.rating-value .big-number').text()`. -/
  ratingText : Str
  /-- `$('dt:contains("ISBN:")').next('dd').text()`. -/
  isbnDd : Str
  /-- `$('meta[property="books:isbn"]').attr('content')`. -/
  isbnMeta : Option Str
  /-- `$('span.author a').text()`. -/
  authorFallback : Str
  /-- `$('dt:contains("Lektor:")').next('dd').text()`. -/
  narratorText : Str
  /-- Texts of `span:first-child` and `span:nth-child(2)` under `span.book__hours`,
  `none` when no such element exists. -/
  durationSpan : Option (Str × Str)
  /-- `$('dt:contains("Czas trwania:")').next('dd').text()`. -/
  durationText : Str
  /-- `$('dt:contains("Język:")').next('dd').text()`. -/
  languageText : Str
  /-- `$('.collapse-content-js').html()`. -/
  descriptionCollapse : Option Str
  /-- `$('.book-description-container__description-text').html()`. -/
  descriptionContainer : Option Str
  /-- `$('meta[property="og:description"]').attr('content')`. -/
  ogDescription : Option Str
  /-- `$('dt:contains("Data wydania:")').next('dd').text()`. -/
  dateText : Str
  /-- `$('dt[data-original-title="Data pierwszego wydania polskiego"]').next('dd').text()`. -/
  firstPubDateText : Str
  /-- `$('span.book__pages.pr-2').text()`. -/
  pagesSpan : Str
  /-- `$('dt:contains("Liczba stron:")').next('dd').text()`. -/
  pagesDd : Str
  /-- `$('dt:contains("Tłumacz:")').next('dd').find('a').text()`. -/
  translatorText : Str
  deriving DecidableEq, Repr

/-- A fetched document, seen through the selectors of the provider. -/
structure Page where
  listing : List ListingEntry
  detail : DetailView
  deriving DecidableEq, Repr

/-- A value of `getLanguageName`: a string, or the member of `Object.prototype` that
the lookup `languageMap[...]` finds under an inherited name. -/
inductive Language where
  | name (s : Str)
  | inherited (member : Str)
  deriving DecidableEq, Repr

/-- The enrichment fields of `getFullMetadata`.  A `Date` object is represented by
the text it was built from. -/
structure Details where
  cover : Str
  description : Str
  languages : List Language
  publishedDate : Option Str
  publisher : Str
  series : Option Str
  seriesIndex : Option Int
  genres : List Str
  tags : List Str
  rating : Option JSNum
  narrator : Option Str
  duration : Option Int
  isbn : Str
  lubimyczytac : Str
  deriving DecidableEq

/-- An element of `matches`: the candidate fields, and the enrichment fields
when present. -/
structure Record where
  base : RankedCandidate
  details : Option Details
  deriving DecidableEq

/-- The value returned by `searchBooks`: the object `{ matches: [...] }`. -/
structure SearchResult where
  /-- The field `matches`. -/
  matchList : List Record
  deriving DecidableEq

/-- The collaborators of the provider. -/
structure Env where
  /-- The call `axios.get(url)` issued as the `n`-th request of a call of
  `searchBooks`: a document, or a failure. -/
  fetch : Nat → Str → Except Str Page
  /-- The function `stringSimilarity.compareTwoStrings`. -/
  compareTwoStrings : Str → Str → ℚ
  /-- The built-in `String.prototype.toLowerCase`. -/
  toLowerCase : Str → Str
  /-- The built-in `encodeURIComponent`. -/
  encodeURIComponent : Str → Str
  /-- The text `new Date(text).toLocaleDateString()`. -/
  toLocaleDateString : Str → Str

/-! ## Listing parser (`parseSearchResults`, `decodeUnicode`) -/

/-- The field `this.baseUrl`. -/
def baseUrl : Str := "https://lubimyczytac.pl".toList

/-- The descriptor built at lines 169 to 173. -/
def providerSource : Source :=
  { id := "lubimyczytac".toList, description := "Lubimy Czytać".toList, link := baseUrl }

/-- The pattern `/\\u([0-9a-fA-F]{4})/g`. -/
def reUnicodeEscape : Re :=
  Re.cat [.one (.lit '\\'), .one (.lit 'u'),
    .group 1 (Re.cat [.one .hex, .one .hex, .one .hex, .one .hex])]

/-- The method `decodeUnicode`.  `String.fromCharCode` is `Char.ofNat`, which differs
on the surrogate range only. -/
def decodeUnicode (s : Str) : Str :=
  replaceAll reUnicodeEscape
    (fun caps => [Char.ofNat (natOfHex (((caps.find? fun p => p.1 == 1).map Prod.snd).getD []))]) s

/-- The candidate pushed for one listing entry, if any (lines 158 to 175). -/
def parseEntry (type : MatchType) (e : ListingEntry) : Option Candidate :=
  let title := trim e.titleText
  match e.href with
  | none => none
  | some bookUrl =>
    if !title.isEmpty && !bookUrl.isEmpty then
      some
        { id := (split "/".toList bookUrl).getLastD []
          title := decodeUnicode title
          authors := e.authorTexts.map fun a => decodeUnicode (trim a)
          url := baseUrl ++ bookUrl
          type := type
          source := providerSource }
    else none

/-- The method `parseSearchResults`, on the entries of a listing document. -/
def parseSearchResults (entries : List ListingEntry) (type : MatchType) : List Candidate :=
  entries.filterMap (parseEntry type)

/-! ## Ranking (`searchBooks`, lines 107 to 136) -/

/-- The similarity attached to a candidate (lines 111 to 123). -/
def combinedSimilarity (env : Env) (cleanedTitle extractedAuthor : Str) (m : Candidate) :
    JSNum :=
  let titleSimilarity : JSNum :=
    .fin (env.compareTwoStrings (env.toLowerCase m.title) (env.toLowerCase cleanedTitle))
  if !extractedAuthor.isEmpty then
    let authorSimilarity := JSNum.mathMax (m.authors.map fun a =>
      .fin (env.compareTwoStrings (env.toLowerCase a) (env.toLowerCase extractedAuthor)))
    (titleSimilarity.mul (.fin (6 / 10))).add (authorSimilarity.mul (.fin (4 / 10)))
  else titleSimilarity

/-- The callback of `map` at lines 110 to 125. -/
def scoreMatch (env : Env) (cleanedTitle extractedAuthor : Str) (m : Candidate) :
    RankedCandidate :=
  { toCandidate := m, similarity := combinedSimilarity env cleanedTitle extractedAuthor m }

/-- The expression `x.type === 'audiobook' ? 1 : 0`. -/
def typeValue (t : MatchType) : ℚ :=
  match t with
  | .audiobook => 1
  | .book => 0

/-- The comparator of lines 126 to 136. -/
def compareMatches (a b : RankedCandidate) : JSNum :=
  if JSNum.strictNe b.similarity a.similarity then b.similarity.sub a.similarity
  else .fin (typeValue b.type - typeValue a.type)

/-- The order `Array.prototype.sort` derives from the comparator: `a` stays before `b`
unless the comparator is positive. -/
def sortsBefore (a b : RankedCandidate) : Prop := (compareMatches a b).isPos = false

instance : DecidableRel sortsBefore := fun a b =>
  inferInstanceAs (Decidable ((compareMatches a b).isPos = false))

/-- The call `Array.prototype.sort(compareMatches)`: a stable sort. -/
def sortMatches (l : List RankedCandidate) : List RankedCandidate :=
  l.insertionSort sortsBefore

/-- Sort and keep at most 20 (`.sort(...).slice(0, 20)`). -/
def rankMatches (l : List RankedCandidate) : List RankedCandidate :=
  (sortMatches l).take 20

/-! ## Detail enrichment (`getFullMetadata`) -/

/-- The expression `a || b` on strings. -/
def strOr (a b : Str) : Str := if a.isEmpty then b else a

/-- The expression `a || b` where `a` may be undefined. -/
def optOr (a : Option Str) (b : Str) : Str :=
  match a with
  | some x => strOr x b
  | none => b

/-- The expression `a || null` on strings. -/
def strOrNull (a : Str) : Option Str := if a.isEmpty then none else some a

/-- The rating of lines 212 and 213. -/
def rating (ratingText : Str) : Option JSNum :=
  let ratingValue := replaceFirstStr ",".toList ".".toList (trim ratingText)
  if (parseFloat ratingValue).truthy then
    some (((parseFloat ratingValue).div (.fin 10)).mul (.fin 5))
  else none

/-- The expression `parseInt(s) || 0`. -/
def parseIntOr0 (s : Str) : Int :=
  match parseInt s with
  | some n => n
  | none => 0

/-- The pattern `/(\d+)\s*godz.*?(\d+)?\s*min/i`. -/
def reDuration : Re :=
  Re.cat [.group 1 (Re.plus .digit), .star .space, Re.wordI "godz".toList, .lazyStar .dot,
    .opt (.group 2 (Re.plus .digit)), .star .space, Re.wordI "min".toList]

/-- The duration from the pair of spans (lines 261 to 263). -/
def durationFromSpans (hoursText minutesText : Str) : Int :=
  let hours := parseIntOr0 hoursText
  let minutes := parseIntOr0 minutesText
  hours * 3600 + minutes * 60

/-- The duration from the labelled text (lines 265 to 271); an undefined capture
reads as `NaN`. -/
def durationFromText (text : Str) : Option Int :=
  match exec reDuration (trim text) with
  | none => none
  | some m =>
    let hours := ((m.cap 1).map parseIntOr0).getD 0
    let minutes := ((m.cap 2).map parseIntOr0).getD 0
    some ((hours * 60 + minutes) * 60)

/-- The duration of lines 258 to 272. -/
def duration (v : DetailView) : Option Int :=
  match v.durationSpan with
  | some (h, m) => some (durationFromSpans h m)
  | none => durationFromText v.durationText

/-- The pattern `/\s*\(tom \d+.*?\)\s*$/`. -/
def reSeriesSuffix : Re :=
  Re.cat [.star .space, .one (.lit '('), Re.word "tom ".toList, Re.plus .digit, .lazyStar .dot,
    .one (.lit ')'), .star .space, .eol]

/-- The pattern `/\(tom (\d+)/`. -/
def reSeriesIndex : Re :=
  Re.cat [.one (.lit '('), Re.word "tom ".toList, .group 1 (Re.plus .digit)]

/-- The method `extractSeriesName`, on a non-empty text. -/
def extractSeriesName (seriesElement : Str) : Str :=
  trim (removeFirst reSeriesSuffix seriesElement)

/-- The method `extractSeriesIndex`, on a non-empty text. -/
def extractSeriesIndex (seriesElement : Str) : Option Int :=
  match exec reSeriesIndex seriesElement with
  | none => none
  | some m => (m.cap 1).bind parseInt

/-- The method `extractGenres`. -/
def extractGenres (v : DetailView) : List Str :=
  let genreText := trim v.genreText
  if genreText.isEmpty then [] else (split ",".toList genreText).map trim

/-- The method `extractTags`. -/
def extractTags (v : DetailView) : List Str := v.tagTexts.map trim

/-- The pattern `/<[^>]*>/g`. -/
def reHtmlTag : Re := Re.cat [.one (.lit '<'), .star (.notLit '>'), .one (.lit '>')]

/-- The method `stripHtmlTags`. -/
def stripHtmlTags (html : Str) : Str := removeAll reHtmlTag html

/-- The conversion of an integer to a string in a template literal (the decimal
numeral, which is what JavaScript prints below `10 ^ 21`). -/
def intToString (n : Int) : Str :=
  if n < 0 then '-' :: Nat.toDigits 10 n.natAbs else Nat.toDigits 10 n.natAbs

/-- The method `enrichDescription`.  `pages` is `none` for `null` and for `NaN`. -/
def enrichDescription (env : Env) (description : Str) (pages : Option Int)
    (publishedDate translator : Option Str) : Str :=
  let stripped := stripHtmlTags description
  let d0 := if stripped = "Ta książka nie posiada jeszcze opisu.".toList then "Brak opisu.".toList
    else stripped
  let d1 := match pages with
    | some n => if n ≠ 0 then d0 ++ "\n\nKsiążka ma ".toList ++ intToString n ++ " stron.".toList
      else d0
    | none => d0
  let d2 := match publishedDate with
    | some t => d1 ++ "\n\nData pierwszego wydania: ".toList ++ env.toLocaleDateString t
    | none => d1
  match translator with
  | some t => d2 ++ "\n\nTłumacz: ".toList ++ t
  | none => d2

/-- The names of the members of `Object.prototype`, which an object literal
inherits. -/
def objectPrototypeMembers : List Str :=
  ["constructor", "__defineGetter__", "__defineSetter__", "hasOwnProperty",
    "__lookupGetter__", "__lookupSetter__", "isPrototypeOf", "propertyIsEnumerable",
    "toString", "valueOf", "__proto__", "toLocaleString"].map String.toList

/-- The method `getLanguageName`. -/
def getLanguageName (env : Env) (language : Str) : Language :=
  let key := env.toLowerCase language
  if key = "polski".toList then .name "pol".toList
  else if key = "angielski".toList then .name "eng".toList
  else if key ∈ objectPrototypeMembers then .inherited key
  else .name language

/-- The pattern `/(\d+)\s*str/`. -/
def rePages : Re := Re.cat [.group 1 (Re.plus .digit), .star .space, Re.word "str".toList]

/-- The page count of lines 241 to 249; `none` for `null` and for `NaN`. -/
def pages (v : DetailView) : Option Int :=
  match exec rePages (trim v.pagesSpan) with
  | some m => (m.cap 1).bind parseInt
  | none => if (trim v.pagesDd).isEmpty then none else parseInt (trim v.pagesDd)

/-- The publication date of lines 225 to 238: the text handed to `new Date`. -/
def publishedDate (v : DetailView) : Option Str :=
  if !(trim v.dateText).isEmpty then some (trim v.dateText)
  else if !(trim v.firstPubDateText).isEmpty then some (trim v.firstPubDateText)
  else none

/-- The expression `a || b` where `a` may be `null`. -/
def optOrOpt (a : Option Str) (b : Option Str) : Option Str :=
  match a with
  | some x => if x.isEmpty then b else some x
  | none => b

/-- The success path of `getFullMetadata` (lines 184 to 293). -/
def enrich (env : Env) (v : DetailView) (m : RankedCandidate) : Record :=
  let publisher := strOr (trim v.publisherSpan) (trim v.publisherDd)
  let languages := split ", ".toList (trim v.languageText)
  let description :=
    ((optOrOpt v.descriptionCollapse (optOrOpt v.descriptionContainer v.ogDescription)).getD [])
  let seriesElement := trim v.seriesText
  let authorFallback := trim v.authorFallback
  let authors :=
    if m.authors.isEmpty && !authorFallback.isEmpty then [decodeUnicode authorFallback]
    else m.authors
  { base := { m with authors := authors }
    details := some
      { cover := optOr v.imgSrc (optOr v.ogImage [])
        description := enrichDescription env description (pages v) (publishedDate v)
          (strOrNull (trim v.translatorText))
        languages := languages.map (getLanguageName env)
        publishedDate := publishedDate v
        publisher := publisher
        series := if seriesElement.isEmpty then none else some (extractSeriesName seriesElement)
        seriesIndex := if seriesElement.isEmpty then none else extractSeriesIndex seriesElement
        genres := extractGenres v
        tags := extractTags v
        rating := rating v.ratingText
        narrator := strOrNull (trim v.narratorText)
        duration := duration v
        isbn := strOr (trim v.isbnDd) (optOr v.isbnMeta [])
        lubimyczytac := m.id } }

/-- The method `getFullMetadata`, given the outcome of its request: on a failure the
`catch` block returns the candidate itself. -/
def getFullMetadata (env : Env) (response : Except Str Page) (m : RankedCandidate) :
    Record :=
  match response with
  | .ok page => enrich env page.detail m
  | .error _ => { base := m, details := none }

/-- Line 138: one `getFullMetadata` per ranked candidate; the request of the
candidate at position `i` is request number `first + i`. -/
def enrichAll (env : Env) (first : Nat) : List RankedCandidate → List Record
  | [] => []
  | m :: ms => getFullMetadata env (env.fetch first m.url) m :: enrichAll env (first + 1) ms

/-! ## Result cache (`NodeCache` with `stdTTL: 600`) -/

/-- A cache entry: the stored value and the instant (in milliseconds) at which it
expires. -/
structure CacheEntry where
  value : SearchResult
  expires : Nat

/-- The cache: most recent entry of a key first. -/
abbrev Cache := List (Str × CacheEntry)

/-- The time to live, in milliseconds. -/
def ttlMs : Nat := 600 * 1000

/-- The call `cache.get(key)` at instant `now`: an entry is expired once its expiry
instant is in the past. -/
def Cache.get (c : Cache) (now : Nat) (key : Str) : Option SearchResult :=
  match c.lookup key with
  | some e => if e.expires < now then none else some e.value
  | none => none

/-- The call `cache.set(key, value)` at instant `now`. -/
def Cache.set (c : Cache) (now : Nat) (key : Str) (value : SearchResult) : Cache :=
  (key, { value := value, expires := now + ttlMs }) :: c

/-! ## Orchestrator (`searchBooks`) -/

/-- What a call of `searchBooks` does: the value returned, the cache afterwards, and
the URLs requested, in order. -/
structure Outcome where
  result : SearchResult
  cache : Cache
  requests : List Str

/-- The listing URL of a sub-index (lines 91 to 96). -/
def searchUrl (env : Env) (path : Str) (n : Normalized) : Str :=
  let url := baseUrl ++ path ++ env.encodeURIComponent n.cleanedTitle
  if !n.extractedAuthor.isEmpty then
    url ++ "&author=".toList ++ env.encodeURIComponent n.extractedAuthor
  else url

/-- The URL of the book listing. -/
def booksSearchUrl (env : Env) (n : Normalized) : Str :=
  searchUrl env "/szukaj/ksiazki?phrase=".toList n

/-- The URL of the audiobook listing. -/
def audiobooksSearchUrl (env : Env) (n : Normalized) : Str :=
  searchUrl env "/szukaj/audiobooki?phrase=".toList n

/-- The candidates that go on to enrichment (lines 104 to 136). -/
def rankedMatches (env : Env) (n : Normalized) (books audiobooks : Page) :
    List RankedCandidate :=
  let booksMatches := parseSearchResults books.listing .book
  let audiobooksMatches := parseSearchResults audiobooks.listing .audiobook
  rankMatches ((booksMatches ++ audiobooksMatches).map
    (scoreMatch env n.cleanedTitle n.extractedAuthor))

/-- The cache key of line 36. -/
def cacheKey (query author : Str) : Str := query ++ "-".toList ++ author

/-- The method `searchBooks`, called with the cache `cache`; `tGet` and `tSet` are the
clock readings at `cache.get` and at `cache.set`. -/
def searchBooks (env : Env) (cache : Cache) (tGet tSet : Nat) (query author : Str) :
    Outcome :=
  match cache.get tGet (cacheKey query author) with
  | some cachedResult => { result := cachedResult, cache := cache, requests := [] }
  | none =>
    let n := normalize query author
    match env.fetch 0 (booksSearchUrl env n) with
    | .error _ => { result := { matchList := [] }, cache := cache,
                    requests := [booksSearchUrl env n] }
    | .ok booksResponse =>
      match env.fetch 1 (audiobooksSearchUrl env n) with
      | .error _ => { result := { matchList := [] }, cache := cache,
                      requests := [booksSearchUrl env n, audiobooksSearchUrl env n] }
      | .ok audiobooksResponse =>
        let allMatches := rankedMatches env n booksResponse audiobooksResponse
        let result : SearchResult := { matchList := enrichAll env 2 allMatches }
        { result := result
          cache := cache.set tSet (cacheKey query author) result
          requests := [booksSearchUrl env n, audiobooksSearchUrl env n] ++
            allMatches.map fun m => m.url }

/-! ## Notions of the specification -/

/-- The rank-independent part of a record: the candidate fields other than
`authors` (which the enrichment may fill in) are those of the ranked candidate. -/
def sameCandidate (r : Record) (m : RankedCandidate) : Prop :=
  r.base.id = m.id ∧ r.base.title = m.title ∧ r.base.url = m.url ∧ r.base.type = m.type ∧
    r.base.source = m.source ∧ r.base.similarity = m.similarity

/-- A listing entry with a title and a link, and no author link. -/
def sampleEntry : ListingEntry :=
  { titleText := "My Book".toList, href := some "/ksiazka/1/my-book".toList, authorTexts := [] }

/-- The candidate parsed from `sampleEntry` in the book listing. -/
def sampleCandidate : Candidate :=
  { id := "my-book".toList, title := "My Book".toList, authors := [],
    url := "https://lubimyczytac.pl/ksiazka/1/my-book".toList, type := .book,
    source := providerSource }

/-- A detail document with a rating and a duration. -/
def sampleDetail : DetailView :=
  { imgSrc := none, ogImage := none, publisherSpan := [], publisherDd := [], seriesText := [],
    genreText := [], tagTexts := [], ratingText := "8,5".toList, isbnDd := [], isbnMeta := none,
    authorFallback := [], narratorText := [],
    durationSpan := some ("1".toList, "30".toList), durationText := [],
    languageText := "polski".toList, descriptionCollapse := none, descriptionContainer := none,
    ogDescription := none, dateText := [], firstPubDateText := [], pagesSpan := [],
    pagesDd := [], translatorText := [] }

/-- A document with one listing entry. -/
def samplePage : Page := { listing := [sampleEntry], detail := sampleDetail }

/-- A document with no listing entry. -/
def emptyPage : Page := { listing := [], detail := sampleDetail }

/-- Collaborators whose requests all succeed: the book listing has one entry, the
audiobook listing none. -/
def envUp : Env :=
  { fetch := fun n _ => if n = 1 then .ok emptyPage else .ok samplePage
    compareTwoStrings := fun a b => if a = b then 1 else 0
    toLowerCase := fun s => s.map Char.toLower
    encodeURIComponent := fun s => s
    toLocaleDateString := fun s => s }

/-- Collaborators whose book listing request fails, while the audiobook listing
request succeeds with a document of one entry. -/
def envBooksDown : Env :=
  { envUp with fetch := fun n _ => if n = 0 then .error "ECONNRESET".toList else .ok samplePage }

/-- Collaborators whose listing requests succeed and whose detail requests fail. -/
def envDetailsDown : Env :=
  { envUp with
    fetch := fun n _ =>
      if n = 0 then .ok samplePage else if n = 1 then .ok emptyPage
      else .error "ECONNRESET".toList }

/-! ## Facts about `split`, `join` and `includes` -/

theorem splitFrom_ne_nil (sep : Str) : ∀ (s : Str) (n : Nat) (acc : Str),
    splitFrom sep n acc s ≠ [] := by
  intro s
  induction s with
  | nil => intro n acc; simp [splitFrom]
  | cons x xs ih =>
    intro n acc
    cases n with
    | zero =>
      rw [splitFrom]
      split
      · simp
      · exact ih _ _
    | succ n => rw [splitFrom]; exact ih _ _

theorem splitFrom_skip (sep : Str) : ∀ (l b acc : Str),
    splitFrom sep l.length acc (l ++ b) = splitFrom sep 0 acc b := by
  intro l
  induction l with
  | nil => intro b acc; rfl
  | cons x l ih =>
    intro b acc
    simp only [List.length_cons, List.cons_append]
    rw [splitFrom]
    exact ih b acc

theorem join_cons_of_ne_nil (sep a : Str) {l : List Str} (h : l ≠ []) :
    join sep (a :: l) = a ++ sep ++ join sep l := by
  cases l with
  | nil => exact absurd rfl h
  | cons y r => rfl

theorem splitFrom_at_separator (sep acc s : Str) (hsep : sep ≠ []) (h : sep.isPrefixOf s = true) :
    ∃ b, s = sep ++ b ∧ splitFrom sep 0 acc s = acc.reverse :: splitFrom sep 0 [] b := by
  rw [List.isPrefixOf_iff_prefix] at h
  obtain ⟨b, hb⟩ := h
  refine ⟨b, hb.symm, ?_⟩
  cases sep with
  | nil => exact absurd rfl hsep
  | cons y sep' =>
    subst hb
    simp only [List.cons_append]
    rw [splitFrom]
    have hp : (y :: sep').isPrefixOf (y :: (sep' ++ b)) = true := by
      rw [List.isPrefixOf_iff_prefix]
      exact ⟨b, rfl⟩
    rw [if_pos hp]
    simp only [List.length_cons, Nat.add_sub_cancel]
    rw [splitFrom_skip]

theorem join_splitFrom (sep : Str) (hsep : sep ≠ []) : ∀ (n : Nat) (s acc : Str),
    s.length ≤ n → join sep (splitFrom sep 0 acc s) = acc.reverse ++ s := by
  intro n
  induction n with
  | zero =>
    intro s acc h
    have : s = [] := List.length_eq_zero.mp (Nat.le_zero.mp h)
    subst this
    simp [splitFrom, join]
  | succ n ih =>
    intro s acc h
    cases s with
    | nil => simp [splitFrom, join]
    | cons x xs =>
      by_cases hp : sep.isPrefixOf (x :: xs) = true
      · obtain ⟨b, hb, hs⟩ := splitFrom_at_separator sep acc (x :: xs) hsep hp
        rw [hs, join_cons_of_ne_nil _ _ (splitFrom_ne_nil sep b 0 [])]
        have hlen : b.length ≤ n := by
          have h1 : (x :: xs).length = sep.length + b.length := by rw [hb]; simp
          have h2 : 0 < sep.length := List.length_pos.mpr hsep
          omega
        rw [ih b [] hlen, hb]
        simp
      · rw [splitFrom, if_neg hp]
        have hlen : xs.length ≤ n := by simpa using h
        rw [ih xs (x :: acc) hlen]
        simp

theorem splitFrom_first (sep b : Str) (hsep : sep ≠ []) : ∀ (a acc : Str),
    (∀ t, t ≠ [] → t <:+ a → ¬ sep <+: t ++ sep ++ b) →
    splitFrom sep 0 acc (a ++ sep ++ b) = (acc.reverse ++ a) :: splitFrom sep 0 [] b := by
  intro a
  induction a with
  | nil =>
    intro acc _
    have hp : sep.isPrefixOf (sep ++ b) = true := by
      rw [List.isPrefixOf_iff_prefix]; exact ⟨b, rfl⟩
    obtain ⟨b', hb, hs⟩ := splitFrom_at_separator sep acc (sep ++ b) hsep hp
    have : b' = b := (List.append_cancel_left hb).symm
    subst this
    simpa using hs
  | cons x a ih =>
    intro acc h
    have hp : ¬ sep.isPrefixOf (x :: a ++ sep ++ b) = true := by
      rw [List.isPrefixOf_iff_prefix]
      exact h (x :: a) (by simp) (List.suffix_refl _)
    simp only [List.cons_append] at hp ⊢
    rw [splitFrom, if_neg (by simpa using hp)]
    have h' : ∀ t, t ≠ [] → t <:+ a → ¬ sep <+: t ++ sep ++ b := by
      intro t ht hsuf
      exact h t ht (hsuf.trans (List.suffix_cons x a))
    rw [ih (x :: acc) h']
    simp

theorem includes_append (sep b : Str) (hsep : sep ≠ []) : ∀ a : Str,
    includes sep (a ++ sep ++ b) = true := by
  intro a
  induction a with
  | nil =>
    cases sep with
    | nil => exact absurd rfl hsep
    | cons y sep' =>
      simp only [List.nil_append, List.cons_append, includes, Bool.or_eq_true]
      left
      rw [List.isPrefixOf_iff_prefix]
      exact ⟨b, rfl⟩
  | cons x a ih =>
    simp only [List.cons_append, includes, Bool.or_eq_true]
    right
    simpa using ih

/-- No occurrence of the separator starts inside `a` when the separator is not found
in `a` followed by its first two characters. -/
theorem no_earlier_separator (a b : Str) (h : ¬ sepDash <:+: a ++ " -".toList) :
    ∀ t, t ≠ [] → t <:+ a → ¬ sepDash <+: t ++ sepDash ++ b := by
  intro t ht hsuf hpre
  apply h
  have h1 : t ++ " -".toList <+: t ++ sepDash ++ b := by
    refine ⟨' ' :: b, ?_⟩
    simp [sepDash]
  have hlen : sepDash.length ≤ (t ++ " -".toList).length := by
    have : 0 < t.length := List.length_pos.mpr ht
    simp [sepDash]
    omega
  have h2 : sepDash <+: t ++ " -".toList := List.prefix_of_prefix_length_le hpre h1 hlen
  obtain ⟨u, hu⟩ := hsuf
  obtain ⟨v, hv⟩ := h2
  refine ⟨u, v, ?_⟩
  rw [← hu, List.append_assoc, hv, List.append_assoc]

theorem splitQuery_first (a b : Str) (h : ¬ sepDash <:+: a ++ " -".toList) :
    splitQuery (a ++ sepDash ++ b) [] = (trim a, trim b) := by
  have hsep : sepDash ≠ [] := by decide
  have hs : split sepDash (a ++ sepDash ++ b) = a :: splitFrom sepDash 0 [] b := by
    have := splitFrom_first sepDash b hsep a [] (no_earlier_separator a b h)
    simpa [split] using this
  have hj : join sepDash (splitFrom sepDash 0 [] b) = b := by
    simpa using join_splitFrom sepDash hsep b.length b [] (Nat.le_refl _)
  have hl : 1 < (split sepDash (a ++ sepDash ++ b)).length := by
    rw [hs]
    have := List.length_pos.mpr (splitFrom_ne_nil sepDash b 0 [])
    simp only [List.length_cons]
    omega
  unfold splitQuery
  rw [includes_append sepDash b hsep a]
  simp only [List.isEmpty_nil, Bool.and_self, if_true]
  rw [if_pos (by simpa using hl), hs]
  simp [hj]

theorem includes_iff_infix (sep : Str) : ∀ s : Str, includes sep s = true ↔ sep <:+: s := by
  intro s
  induction s with
  | nil =>
    simp only [includes, List.isPrefixOf_iff_prefix, List.infix_nil, List.prefix_nil]
  | cons x xs ih =>
    simp only [includes, Bool.or_eq_true, List.isPrefixOf_iff_prefix, ih, List.infix_cons_iff]

theorem splitQuery_no_separator (query author : Str) (h : ¬ sepDash <:+: query) :
    splitQuery query author = (author, query) := by
  have : includes sepDash query = false := by
    rw [← Bool.not_eq_true, includes_iff_infix]; exact h
  simp [splitQuery, this]

theorem splitQuery_author (query author : Str) (h : author ≠ []) :
    splitQuery query author = (author, query) := by
  cases author with
  | nil => exact absurd rfl h
  | cons c cs => simp [splitQuery]

/-! ## Facts about the matcher -/

theorem orElse_some {α : Type} (a : α) (b : Option α) : orElse (some a) b = some a := rfl

/-- Greedy iteration over accepted characters up to a last accepted character `x`:
when the continuation fails at the very end and succeeds before `x`, the iteration
gives `x` back. -/
theorem starGreedy_back_one {α : Type} (c : Cls) (k : Option Char → Str → Option α) (x : Char)
    (res : α) (hx : c.test x = true) (hend : k (some x) [] = none)
    (hk : ∀ p, k p [x] = some res) :
    ∀ (t : Str) (p : Option Char), (∀ y ∈ t, c.test y = true) →
      starGreedy c k p (t ++ [x]) = some res := by
  intro t
  induction t with
  | nil =>
    intro p _
    simp [starGreedy, hx, hend, hk, orElse]
  | cons y t ih =>
    intro p h
    have hy : c.test y = true := h y (by simp)
    have ht : ∀ z ∈ t, c.test z = true := fun z hz => h z (by simp [hz])
    simp [starGreedy, hy, ih (some y) ht, orElse]

theorem searchFrom_none_pre (r : Re) : ∀ (s : Str) (prev : Option Char) (pre pre' : Str),
    searchFrom r prev pre s = none → searchFrom r prev pre' s = none := by
  intro s
  induction s with
  | nil =>
    intro prev pre pre' h
    simp only [searchFrom] at h ⊢
    cases hm : matchAt r prev [] with
    | none => rfl
    | some t => rw [hm] at h; cases h
  | cons x xs ih =>
    intro prev pre pre' h
    simp only [searchFrom] at h ⊢
    cases hm : matchAt r prev (x :: xs) with
    | none =>
      rw [hm] at h
      exact ih _ _ _ h
    | some t => rw [hm] at h; cases h

/-- The quoted-title test accepts a text wrapped in double quotes with no line
terminator inside. -/
theorem test_reQuoted (t : Str) (h : ∀ c ∈ t, isLineTerminator c = false) :
    test reQuoted ('"' :: (t ++ ['"'])) = true := by
  have hstar := starGreedy_back_one .dot
    (fun p r => (Re.seq (.one (.lit '"')) .eol).run
      { prev := p, rest := r, caps := [] } some) '"'
    ({ prev := some '"', rest := [], caps := [] } : MState)
    (by decide) (by simp [Re.run]) (by intro p; simp [Re.run, Cls.test]) t (some '"')
    (by intro y hy; simp [Cls.test, h y hy])
  simp [test, exec, searchFrom, matchAt, reQuoted, Re.cat, Re.run, Cls.test] at hstar ⊢
  rw [hstar]
  rfl

/-- The quoted-title replacement returns the text between the quotes. -/
theorem replaceFirst_reQuotedGroup (t : Str) (h : ∀ c ∈ t, isLineTerminator c = false) :
    replaceFirst reQuotedGroup (fun m => (m.cap 1).getD []) ('"' :: (t ++ ['"'])) = t := by
  have hstar := starGreedy_back_one .dot
    (fun p r => (Re.seq (.one (.lit '"')) .eol).run
      { prev := p, rest := r,
        caps := [(1, (t ++ ['"']).take ((t ++ ['"']).length - r.length))] } some) '"'
    ({ prev := some '"', rest := [], caps := [(1, t)] } : MState)
    (by decide) (by simp [Re.run]) (by intro p; simp [Re.run, Cls.test]) t (some '"')
    (by intro y hy; simp [Cls.test, h y hy])
  simp [replaceFirst, exec, searchFrom, matchAt, reQuotedGroup, Re.cat, Re.run, Cls.test]
    at hstar ⊢
  rw [hstar]
  simp [Match.cap]

theorem cleanTitle_quoted (t : Str) (h : ∀ c ∈ t, isLineTerminator c = false) :
    cleanTitle ('"' :: (t ++ ['"'])) = t := by
  unfold cleanTitle
  rw [test_reQuoted t h]
  simpa using replaceFirst_reQuotedGroup t h

theorem sortMatches_perm (l : List RankedCandidate) : (sortMatches l).Perm l :=
  List.perm_insertionSort sortsBefore l

theorem rankMatches_length (l : List RankedCandidate) :
    (rankMatches l).length = min l.length 20 := by
  unfold rankMatches
  rw [List.length_take, (sortMatches_perm l).length_eq]
  exact Nat.min_comm _ _

theorem enrichAll_length (env : Env) : ∀ (l : List RankedCandidate) (first : Nat),
    (enrichAll env first l).length = l.length := by
  intro l
  induction l with
  | nil => intro _; rfl
  | cons m ms ih => intro first; simp [enrichAll, ih]

theorem enrichAll_getElem? (env : Env) : ∀ (l : List RankedCandidate) (first i : Nat),
    (enrichAll env first l)[i]? =
      (l[i]?).map fun m => getFullMetadata env (env.fetch (first + i) m.url) m := by
  intro l
  induction l with
  | nil => intro _ _; simp [enrichAll]
  | cons m ms ih =>
    intro first i
    cases i with
    | zero => simp [enrichAll]
    | succ i =>
      simp only [enrichAll, List.getElem?_cons_succ, ih]
      have : first + 1 + i = first + (i + 1) := by omega
      rw [this]

theorem sameCandidate_getFullMetadata (env : Env) (response : Except Str Page)
    (m : RankedCandidate) : sameCandidate (getFullMetadata env response m) m := by
  cases response with
  | error e => simp [getFullMetadata, sameCandidate]
  | ok page => simp [getFullMetadata, enrich, sameCandidate]

theorem enrichAll_sameCandidate (env : Env) : ∀ (l : List RankedCandidate) (first : Nat),
    List.Forall₂ sameCandidate (enrichAll env first l) l := by
  intro l
  induction l with
  | nil => intro _; exact List.Forall₂.nil
  | cons m ms ih =>
    intro first
    exact List.Forall₂.cons (sameCandidate_getFullMetadata env _ m) (ih _)

theorem searchBooks_of_listings (env : Env) (cache : Cache) (tGet tSet : Nat)
    (query author : Str) (books audiobooks : Page)
    (hmiss : cache.get tGet (cacheKey query author) = none)
    (hb : env.fetch 0 (booksSearchUrl env (normalize query author)) = .ok books)
    (ha : env.fetch 1 (audiobooksSearchUrl env (normalize query author)) = .ok audiobooks) :
    searchBooks env cache tGet tSet query author =
      { result := ⟨enrichAll env 2 (rankedMatches env (normalize query author) books audiobooks)⟩,
        cache := cache.set tSet (cacheKey query author)
          ⟨enrichAll env 2 (rankedMatches env (normalize query author) books audiobooks)⟩,
        requests := [booksSearchUrl env (normalize query author),
            audiobooksSearchUrl env (normalize query author)] ++
          (rankedMatches env (normalize query author) books audiobooks).map fun m => m.url } := by
  simp only [searchBooks, hmiss, hb, ha]

theorem searchBooks_of_hit (env : Env) (cache : Cache) (tGet tSet : Nat)
    (query author : Str) (r : SearchResult)
    (hhit : cache.get tGet (cacheKey query author) = some r) :
    searchBooks env cache tGet tSet query author =
      { result := r, cache := cache, requests := [] } := by
  simp only [searchBooks, hhit]

theorem cache_get_set (c : Cache) (tSet now : Nat) (key : Str) (v : SearchResult)
    (h : now ≤ tSet + ttlMs) : (c.set tSet key v).get now key = some v := by
  simp [Cache.get, Cache.set, List.lookup, Nat.not_lt.mpr h]

/-! ## Facts about the similarity -/

theorem combinedSimilarity_without_authors (env : Env) (cleanedTitle extractedAuthor : Str)
    (m : Candidate) (ha : extractedAuthor ≠ []) (hm : m.authors = []) :
    combinedSimilarity env cleanedTitle extractedAuthor m = .negInf := by
  cases extractedAuthor with
  | nil => exact absurd rfl ha
  | cons c cs =>
    simp [combinedSimilarity, hm, JSNum.mathMax, JSNum.mul, JSNum.add, JSNum.sign,
      JSNum.infOfSign]

theorem foldl_max2_fin : ∀ (qs : List ℚ) (a : ℚ), 0 ≤ a → a ≤ 1 →
    (∀ q ∈ qs, 0 ≤ q ∧ q ≤ 1) →
    ∃ q, (qs.map JSNum.fin).foldl JSNum.max2 (.fin a) = .fin q ∧ 0 ≤ q ∧ q ≤ 1 := by
  intro qs
  induction qs with
  | nil => intro a h0 h1 _; exact ⟨a, rfl, h0, h1⟩
  | cons x xs ih =>
    intro a h0 h1 h
    have hx := h x (by simp)
    simp only [List.map_cons, List.foldl_cons, JSNum.max2]
    exact ih (max a x) (le_max_of_le_left h0) (max_le h1 hx.2)
      (fun q hq => h q (by simp [hq]))

theorem mathMax_fin (qs : List ℚ) (hne : qs ≠ []) (h : ∀ q ∈ qs, 0 ≤ q ∧ q ≤ 1) :
    ∃ q, JSNum.mathMax (qs.map JSNum.fin) = .fin q ∧ 0 ≤ q ∧ q ≤ 1 := by
  cases qs with
  | nil => exact absurd rfl hne
  | cons x xs =>
    have hx := h x (by simp)
    simp only [JSNum.mathMax, List.map_cons, List.foldl_cons, JSNum.max2]
    exact foldl_max2_fin xs x hx.1 hx.2 (fun q hq => h q (by simp [hq]))

/-- With a similarity function into `[0, 1]`, the similarity attached to a candidate is
in `[0, 1]` when no author is searched for or the candidate has an author. -/
theorem combinedSimilarity_range (env : Env)
    (hsim : ∀ a b, 0 ≤ env.compareTwoStrings a b ∧ env.compareTwoStrings a b ≤ 1)
    (cleanedTitle extractedAuthor : Str) (m : Candidate)
    (h : extractedAuthor = [] ∨ m.authors ≠ []) :
    ∃ q, combinedSimilarity env cleanedTitle extractedAuthor m = .fin q ∧ 0 ≤ q ∧ q ≤ 1 := by
  cases extractedAuthor with
  | nil =>
    have ht := hsim (env.toLowerCase m.title) (env.toLowerCase cleanedTitle)
    refine ⟨env.compareTwoStrings (env.toLowerCase m.title) (env.toLowerCase cleanedTitle),
      ?_, ht.1, ht.2⟩
    simp [combinedSimilarity]
  | cons c cs =>
    have hne : m.authors ≠ [] := by
      rcases h with h | h
      · cases h
      · exact h
    obtain ⟨q, hq, h0, h1⟩ := mathMax_fin
      (m.authors.map fun a =>
        env.compareTwoStrings (env.toLowerCase a) (env.toLowerCase (c :: cs)))
      (by simpa using hne)
      (by
        intro q hq
        obtain ⟨a, _, rfl⟩ := List.mem_map.mp hq
        exact hsim _ _)
    have ht := hsim (env.toLowerCase m.title) (env.toLowerCase cleanedTitle)
    rw [List.map_map] at hq
    refine ⟨env.compareTwoStrings (env.toLowerCase m.title) (env.toLowerCase cleanedTitle)
      * (6 / 10) + q * (4 / 10), ?_, ?_, ?_⟩
    · simp only [combinedSimilarity, List.isEmpty_cons, Bool.not_false, if_true]
      have hq' : JSNum.mathMax (m.authors.map fun a => JSNum.fin
          (env.compareTwoStrings (env.toLowerCase a) (env.toLowerCase (c :: cs)))) = .fin q := hq
      rw [hq']
      rfl
    · have := ht.1
      positivity
    · have := ht.2
      linarith

/-! ## Facts about characters and the number parsers -/

theorem not_isWhite_of_isDigit {c : Char} (h : isDigit c = true) : isWhite c = false := by
  simp only [isDigit, Bool.and_eq_true, decide_eq_true_eq] at h
  simp only [isWhite, Bool.or_eq_false_iff, beq_eq_false_iff_ne, ne_eq, Bool.and_eq_false_imp,
    decide_eq_true_eq, decide_eq_false_iff_not]
  omega

theorem not_isDigit_of_isWhite {c : Char} (h : isWhite c = true) : isDigit c = false := by
  cases hd : isDigit c with
  | false => rfl
  | true => rw [not_isWhite_of_isDigit hd] at h; cases h

theorem head_not_digit_of_white_run (ws : Str) (c : Char) (tail : Str)
    (hws : ∀ y ∈ ws, isWhite y = true) (hc : isDigit c = false) :
    ∀ x xs, ws ++ c :: tail = x :: xs → Cls.digit.test x = false := by
  intro x xs h
  cases ws with
  | nil =>
    simp at h
    rw [← h.1]
    exact hc
  | cons y ws =>
    simp at h
    rw [← h.1]
    exact not_isDigit_of_isWhite (hws y (by simp))

theorem exists_first_separator : ∀ query : Str, sepDash <:+: query →
    ∃ a b, query = a ++ sepDash ++ b ∧ ¬ sepDash <:+: a ++ " -".toList := by
  intro query
  induction query with
  | nil => intro h; exact absurd h (by decide)
  | cons x q ih =>
    intro h
    by_cases hp : sepDash <+: x :: q
    · obtain ⟨b, hb⟩ := hp
      exact ⟨[], b, by simpa using hb.symm, by decide⟩
    · have hq : sepDash <:+: q := by
        rcases List.infix_cons_iff.mp h with h1 | h1
        · exact absurd h1 hp
        · exact h1
      obtain ⟨a, b, hab, hfirst⟩ := ih hq
      refine ⟨x :: a, b, by simp [hab], ?_⟩
      intro hin
      rcases List.infix_cons_iff.mp hin with h1 | h1
      · apply hp
        have hpre : x :: a ++ " -".toList <+: x :: q := by
          rw [hab]
          refine ⟨' ' :: b, ?_⟩
          simp [sepDash]
        exact h1.trans hpre
      · exact hfirst h1

/-- C1. With no explicit author, every query that contains `" - "` is cut at the
first occurrence: the extracted author is the trimmed text before it, the title
before cleanup is the trimmed text after it (later occurrences stay in the title),
and the cleanup runs on that title.  The query `Jane Doe - My Book (2020) [FLAC]`
gives the author `Jane Doe` and the title `My Book`. -/
theorem normalize_splits_at_first_separator (query : Str) (h : sepDash <:+: query) :
    (∃ a b, query = a ++ sepDash ++ b ∧ ¬ sepDash <:+: a ++ " -".toList) ∧
    (∀ a b, query = a ++ sepDash ++ b → ¬ sepDash <:+: a ++ " -".toList →
      (normalize query []).extractedAuthor = trim a ∧
      (normalize query []).rawTitle = trim b ∧
      (normalize query []).cleanedTitle = cleanTitle (trim b)) ∧
    normalize "Jane Doe - My Book (2020) [FLAC]".toList [] =
      { extractedAuthor := "Jane Doe".toList, rawTitle := "My Book (2020) [FLAC]".toList,
        cleanedTitle := "My Book".toList } := by
  refine ⟨exists_first_separator query h, ?_, by decide⟩
  intro a b hq hfirst
  subst hq
  simp only [normalize, splitQuery_first a b hfirst]
  exact ⟨trivial, trivial, trivial⟩

theorem normalize_splits_at_first_separator_witness :
    sepDash <:+: "Jane Doe - My Book - Part 2 (2020)".toList ∧
    (normalize "Jane Doe - My Book - Part 2 (2020)".toList []).extractedAuthor =
      "Jane Doe".toList ∧
    (normalize "Jane Doe - My Book - Part 2 (2020)".toList []).rawTitle =
      "My Book - Part 2 (2020)".toList := by
  have h := (normalize_splits_at_first_separator "Jane Doe - My Book - Part 2 (2020)".toList
    (by decide)).2.1 "Jane Doe".toList "My Book - Part 2 (2020)".toList (by decide) (by decide)
  exact ⟨by decide, h.1.trans (by decide), h.2.1.trans (by decide)⟩

/-- C2, as the code has it.  A query wrapped in double quotes, holding no line
terminator and no `" - "`, given with no explicit author, is normalised to the text
between the quotes, verbatim: no split, no cleanup rule. -/
theorem quoted_title_is_verbatim (t : Str) (hlt : ∀ c ∈ t, isLineTerminator c = false)
    (hsep : ¬ sepDash <:+: '"' :: (t ++ ['"'])) :
    normalize ('"' :: (t ++ ['"'])) [] =
      { extractedAuthor := [], rawTitle := '"' :: (t ++ ['"']), cleanedTitle := t } := by
  simp [normalize, splitQuery_no_separator _ [] hsep, cleanTitle_quoted t hlt]

theorem quoted_title_is_verbatim_witness :
    normalize "\"My Book (2020) [FLAC]\"".toList [] =
      { extractedAuthor := [], rawTitle := "\"My Book (2020) [FLAC]\"".toList,
        cleanedTitle := "My Book (2020) [FLAC]".toList } :=
  quoted_title_is_verbatim "My Book (2020) [FLAC]".toList (by decide) (by decide)

/-- C2 fails on the example of the specification: the quoted query `"Exact - Title"`
is split at the separator first, so the author is `"Exact` and the title `Title"`. -/
theorem quoted_query_with_separator_is_split :
    normalize "\"Exact - Title\"".toList [] =
      { extractedAuthor := "\"Exact".toList, rawTitle := "Title\"".toList,
        cleanedTitle := "Title\"".toList } ∧
    (normalize "\"Exact - Title\"".toList []).cleanedTitle ≠ "Exact - Title".toList := by
  decide

/-- C5, as the code has it.  On a cache miss, when the listing request of either
sub-index fails, `searchBooks` returns no match and stores nothing, whatever the
other sub-index returns. -/
theorem listing_failure_gives_no_match (env : Env) (cache : Cache) (tGet tSet : Nat)
    (query author : Str) (hmiss : cache.get tGet (cacheKey query author) = none)
    (hfail : (∃ e, env.fetch 0 (booksSearchUrl env (normalize query author)) = .error e) ∨
      (∃ e, env.fetch 1 (audiobooksSearchUrl env (normalize query author)) = .error e)) :
    (searchBooks env cache tGet tSet query author).result.matchList = [] ∧
    (searchBooks env cache tGet tSet query author).cache = cache := by
  unfold searchBooks
  rw [hmiss]
  simp only
  cases hb : env.fetch 0 (booksSearchUrl env (normalize query author)) with
  | error e => exact ⟨rfl, rfl⟩
  | ok books =>
    rcases hfail with ⟨e, he⟩ | ⟨e, he⟩
    · rw [hb] at he; cases he
    · simp only [he]
      exact ⟨trivial, trivial⟩

theorem listing_failure_gives_no_match_witness :
    (searchBooks envBooksDown [] 0 0 "My Book".toList []).result.matchList = [] ∧
    (searchBooks envBooksDown [] 0 0 "My Book".toList []).cache = [] :=
  listing_failure_gives_no_match envBooksDown [] 0 0 "My Book".toList [] rfl
    (Or.inl ⟨"ECONNRESET".toList, rfl⟩)

/-- C5 fails: the book listing request fails, the audiobook listing request succeeds
and its document parses to one candidate, and `searchBooks` returns no match. -/
theorem failed_book_listing_hides_audiobooks :
    envBooksDown.fetch 0 (booksSearchUrl envBooksDown (normalize "My Book".toList [])) =
      .error "ECONNRESET".toList ∧
    envBooksDown.fetch 1 (audiobooksSearchUrl envBooksDown (normalize "My Book".toList [])) =
      .ok samplePage ∧
    (parseSearchResults samplePage.listing .audiobook).length = 1 ∧
    (searchBooks envBooksDown [] 0 0 "My Book".toList []).result.matchList = [] := by
  exact ⟨rfl, rfl, by decide, by decide⟩

/-- C6. `getFullMetadata` returns a record whatever its request does, and on a failed
request the record is the ranked candidate itself, with no enrichment field.  Hence,
when both listings are fetched, `searchBooks` returns one record per ranked
candidate (at most 20), in the ranked order, and the record of a candidate whose
detail request failed is that candidate unmodified. -/
theorem detail_failures_keep_every_match (env : Env) (cache : Cache) (tGet tSet : Nat)
    (query author : Str) (books audiobooks : Page)
    (hmiss : cache.get tGet (cacheKey query author) = none)
    (hb : env.fetch 0 (booksSearchUrl env (normalize query author)) = .ok books)
    (ha : env.fetch 1 (audiobooksSearchUrl env (normalize query author)) = .ok audiobooks) :
    (∀ (e : Str) (m : RankedCandidate),
      getFullMetadata env (.error e) m = { base := m, details := none }) ∧
    (rankedMatches env (normalize query author) books audiobooks).length ≤ 20 ∧
    (searchBooks env cache tGet tSet query author).result.matchList.length =
      (rankedMatches env (normalize query author) books audiobooks).length ∧
    List.Forall₂ sameCandidate (searchBooks env cache tGet tSet query author).result.matchList
      (rankedMatches env (normalize query author) books audiobooks) ∧
    (∀ (i : Nat) (m : RankedCandidate) (e : Str),
      (rankedMatches env (normalize query author) books audiobooks)[i]? = some m →
      env.fetch (2 + i) m.url = .error e →
      (searchBooks env cache tGet tSet query author).result.matchList[i]? =
        some { base := m, details := none }) := by
  rw [searchBooks_of_listings env cache tGet tSet query author books audiobooks hmiss hb ha]
  refine ⟨fun _ _ => rfl, ?_, enrichAll_length _ _ _, enrichAll_sameCandidate _ _ _, ?_⟩
  · unfold rankedMatches
    rw [rankMatches_length]
    exact Nat.min_le_right _ _
  · intro i m e hm he
    simp only
    rw [enrichAll_getElem?, hm]
    simp [he, getFullMetadata]

theorem detail_failures_keep_every_match_witness :
    (searchBooks envDetailsDown [] 0 0 "My Book".toList []).result.matchList.length =
      (rankedMatches envDetailsDown (normalize "My Book".toList []) samplePage emptyPage).length ∧
    (searchBooks envDetailsDown [] 0 0 "My Book".toList []).result.matchList.map
      (fun r => r.details) = [none] := by
  have h := detail_failures_keep_every_match envDetailsDown [] 0 0 "My Book".toList []
    samplePage emptyPage rfl rfl rfl
  exact ⟨h.2.2.1, by decide⟩

/-- C7 fails on a candidate without author: the listing entry `sampleEntry` parses to
a candidate whose author list is empty, and with an author to search for its
similarity is `-Infinity`, whatever the similarity function. -/
theorem similarity_without_authors_is_negInf :
    parseSearchResults [sampleEntry] .book = [sampleCandidate] ∧
    sampleCandidate.authors = [] ∧
    ∀ env : Env,
      (scoreMatch env "My Book".toList "Jane Doe".toList sampleCandidate).similarity = .negInf ∧
      ¬ ∃ q : ℚ, (scoreMatch env "My Book".toList "Jane Doe".toList sampleCandidate).similarity =
        .fin q ∧ 0 ≤ q ∧ q ≤ 1 := by
  refine ⟨by decide, rfl, ?_⟩
  intro env
  have h : (scoreMatch env "My Book".toList "Jane Doe".toList sampleCandidate).similarity =
      .negInf :=
    combinedSimilarity_without_authors env "My Book".toList "Jane Doe".toList sampleCandidate
      (by decide) rfl
  refine ⟨h, ?_⟩
  rintro ⟨q, hq, _⟩
  rw [h] at hq
  cases hq

/-- C8, as the code has it.  When a call of `searchBooks` misses the cache and both
its listing requests succeed, its result is stored, and a second call with the same
arguments, made no later than 600 s after the store, returns the same result and
issues no request, whatever the requests of the second call would do and whatever
the detail requests of the first call did. -/
theorem second_call_is_served_from_cache (env env2 : Env) (cache : Cache)
    (tGet tSet tGet2 tSet2 : Nat) (query author : Str) (books audiobooks : Page)
    (hmiss : cache.get tGet (cacheKey query author) = none)
    (hb : env.fetch 0 (booksSearchUrl env (normalize query author)) = .ok books)
    (ha : env.fetch 1 (audiobooksSearchUrl env (normalize query author)) = .ok audiobooks)
    (ht : tGet2 ≤ tSet + ttlMs) :
    (searchBooks env2 (searchBooks env cache tGet tSet query author).cache tGet2 tSet2
        query author).result = (searchBooks env cache tGet tSet query author).result ∧
    (searchBooks env2 (searchBooks env cache tGet tSet query author).cache tGet2 tSet2
        query author).requests = [] ∧
    (searchBooks env2 (searchBooks env cache tGet tSet query author).cache tGet2 tSet2
        query author).cache = (searchBooks env cache tGet tSet query author).cache := by
  rw [searchBooks_of_listings env cache tGet tSet query author books audiobooks hmiss hb ha]
  simp only
  rw [searchBooks_of_hit env2 _ tGet2 tSet2 query author _
    (cache_get_set cache tSet tGet2 (cacheKey query author) _ ht)]
  exact ⟨rfl, rfl, rfl⟩

theorem second_call_is_served_from_cache_witness :
    (searchBooks envBooksDown (searchBooks envDetailsDown [] 0 5 "My Book".toList []).cache
        600005 600009 "My Book".toList []).result =
      (searchBooks envDetailsDown [] 0 5 "My Book".toList []).result ∧
    (searchBooks envBooksDown (searchBooks envDetailsDown [] 0 5 "My Book".toList []).cache
        600005 600009 "My Book".toList []).requests = [] ∧
    (searchBooks envBooksDown (searchBooks envDetailsDown [] 0 5 "My Book".toList []).cache
        600005 600009 "My Book".toList []).cache =
      (searchBooks envDetailsDown [] 0 5 "My Book".toList []).cache :=
  second_call_is_served_from_cache envDetailsDown envBooksDown [] 0 5 600005 600009
    "My Book".toList [] samplePage emptyPage rfl rfl rfl (by decide)

/-- C8 fails when a listing request of the first call fails: nothing is stored, and
a second call made 5 ms later issues requests and returns another result. -/
theorem failed_first_call_is_not_cached :
    (searchBooks envBooksDown [] 0 5 "My Book".toList []).result = { matchList := [] } ∧
    (searchBooks envBooksDown [] 0 5 "My Book".toList []).cache = [] ∧
    10 ≤ 5 + ttlMs ∧
    (searchBooks envUp (searchBooks envBooksDown [] 0 5 "My Book".toList []).cache 10 15
        "My Book".toList []).requests ≠ [] ∧
    (searchBooks envUp (searchBooks envBooksDown [] 0 5 "My Book".toList []).cache 10 15
        "My Book".toList []).result ≠
      (searchBooks envBooksDown [] 0 5 "My Book".toList []).result := by
  refine ⟨by decide, rfl, by decide, by decide, by decide⟩

end LubimyCzytac
